import Mathlib

/-!
Verification development for the circular-music procedural audio core.

The repository programs an external block-rate signal engine (Elementary
audio) by building declarative expression graphs.  We shallowly embed the
graph-building code: per-sample signals become functions `ℕ → ℝ`, the
stateful runtime primitives used by the repository (`el.smooth`, `el.latch`,
`el.accum`, `el.sparseq`) become explicit recurrences on those streams, and
the pure arithmetic nodes (`el.mul`, `el.add`, `el.le`, ...) become the
corresponding real-number operations.  Per the repository's own architecture
notes, the low-level DSP primitives of the runtime (`el.bandpass`,
oscillators, delays) are an external black box; where a claim's truth does
not depend on their internals we abstract them as an arbitrary function
parameter.

Conventions for the runtime primitives, taken from the Elementary reference
and the repository's own comments:
* `el.le(a, b)` is the strict comparison: 1 when `a < b`, else 0
  (the code comments read "active while phase < 1" and "below probability
  threshold").
* `el.and(a, b)` is 1 when both operands are nonzero, else 0.
* `el.smooth(p, x)` is the one-pole lowpass `y[n] = (1-p)·x[n] + p·y[n-1]`
  with zero initial state, and `el.tau2pole(t) = exp(-1/(t·fs))`.
* `el.latch(t, x)` samples and holds `x` while `t` is nonzero, starting
  from 0.
* `el.accum(x, reset)` is a running sum of `x`, reset to 0 whenever the
  reset signal is nonzero.
* `el.sparseq({seq}, clock, reset)` emits, at tick count `t` since the last
  reset, the value of the last sequence entry whose `tickTime` is ≤ `t`
  (0 before the first entry applies).

The rendering sample rate is fixed at 44100 Hz, matching the `SAMPLE_RATE`
constant in `granular.ts`.
-/

namespace CircularMusic

noncomputable section

/-- Strict comparison node `el.le`: 1 when the first input is less than the
second, 0 otherwise. -/
def elLe (x y : ℝ) : ℝ := if x < y then 1 else 0

/-- Logical conjunction node `el.and`: 1 when both inputs are nonzero. -/
def elAnd (x y : ℝ) : ℝ := if x ≠ 0 ∧ y ≠ 0 then 1 else 0

/-- Pole computation `el.tau2pole(tau) = exp(-1/(tau*fs))` at fs = 44100. -/
noncomputable def tau2pole (tau : ℝ) : ℝ := Real.exp (-(1 / (tau * 44100)))

/-- One-pole smoother `el.smooth(p, x)`: `y[n] = (1-p)·x[n] + p·y[n-1]`,
with zero initial state. -/
noncomputable def smoothStream (p : ℝ) (x : ℕ → ℝ) : ℕ → ℝ
  | 0 => (1 - p) * x 0
  | n + 1 => (1 - p) * x (n + 1) + p * smoothStream p x n

/-- Sample-and-hold node `el.latch(t, x)`: outputs `x` whenever `t` is
nonzero and holds the previous output otherwise, starting from 0. -/
def latchStream (t x : ℕ → ℝ) : ℕ → ℝ
  | 0 => if t 0 ≠ 0 then x 0 else 0
  | n + 1 => if t (n + 1) ≠ 0 then x (n + 1) else latchStream t x n

/-- Accumulator node `el.accum(x, reset)`: running sum of `x`, reset to 0
whenever the reset signal is nonzero. -/
def accumStream (x reset : ℕ → ℝ) : ℕ → ℝ
  | 0 => if reset 0 ≠ 0 then 0 else x 0
  | n + 1 => if reset (n + 1) ≠ 0 then 0 else accumStream x reset n + x (n + 1)

/-! ## Granular synthesis engine (`granular.ts`) -/

/-- Envelope shape selector, `GrainEnvelope` in `granular.ts`. -/
inductive GrainEnvelope
  | hann
  | trapezoid
  deriving DecidableEq, Repr

/-- Parameter bag `GranularParams` from `granular.ts`. -/
structure GranularParams where
  samplePath : String
  grainSize : ℝ
  density : ℝ
  position : ℝ
  pitch : ℝ
  positionSpray : ℝ
  pitchSpray : ℝ
  stereoSpread : ℝ
  gain : ℝ
  envelope : GrainEnvelope

/-- Hann window `hannEnvelope` from `granular.ts`:
`0.5 * (1 - cos(2π·phase))`. -/
noncomputable def hannEnvelope (phase : ℝ) : ℝ :=
  0.5 * (1 - Real.cos (2 * Real.pi * phase))

/-- Trapezoid window `trapezoidEnvelope` from `granular.ts`:
`min(min(1, phase/0.1), min(1, (1-phase)/0.1))`. -/
def trapezoidEnvelope (phase : ℝ) : ℝ :=
  min (min 1 (phase / 0.1)) (min 1 ((1 - phase) / 0.1))

/-- Envelope dispatch `grainEnvelope` from `granular.ts`. -/
noncomputable def grainEnvelope (phase : ℝ) : GrainEnvelope → ℝ
  | .trapezoid => trapezoidEnvelope phase
  | .hann => hannEnvelope phase

/-- Gate `grainActive = el.le(phase, 1)` from `createGrainVoice`. -/
def grainActive (phase : ℝ) : ℝ := elLe phase 1

/-- Gated envelope `gatedEnv = el.mul(env, grainActive)` from
`createGrainVoice`. -/
noncomputable def gatedEnv (phase : ℝ) (shape : GrainEnvelope) : ℝ :=
  grainEnvelope phase shape * grainActive phase

/-- Grain size in samples, `(grainSize / 1000) * SAMPLE_RATE` from
`createGrainVoice`. -/
def grainSizeSamples (p : GranularParams) : ℝ := p.grainSize / 1000 * 44100

/-- Bipolar pitch offset from `createGrainVoice`:
`(pitchSpray * 0.5) * (2·pitchRand - 1)`, where `pitchRand` is the latched
uniform random value. -/
def pitchOffset (p : GranularParams) (pitchRand : ℝ) : ℝ :=
  p.pitchSpray * 0.5 * (2 * pitchRand - 1)

/-- Effective playback ratio from `createGrainVoice` (named `pitchRatio` in
the source): `pitch * (1 + pitchOffset)`. -/
def pitchScale (p : GranularParams) (pitchRand : ℝ) : ℝ :=
  p.pitch * (1 + pitchOffset p pitchRand)

/-- Per-sample phase increment from `createGrainVoice`:
`pitchRatio / grainSizeSamples`. -/
def phaseIncrement (p : GranularParams) (pitchRand : ℝ) : ℝ :=
  pitchScale p pitchRand / grainSizeSamples p

/-- Effective grain length from `createGrainVoice`:
`(grainSizeSamples / pitch) * pitchRatio`.  The division by the raw,
unclamped `pitch` parameter is taken directly from the source. -/
def grainLengthInSamples (p : GranularParams) (pitchRand : ℝ) : ℝ :=
  grainSizeSamples p / p.pitch * pitchScale p pitchRand

/-- Demo sample path used by concrete parameter sets in this file. -/
def samplePathDemo : String := "/samples/demo"

/-- Concrete parameter set with `pitch = 0`; every other field is inside its
documented UI range. -/
def paramsPitchZero : GranularParams where
  samplePath := samplePathDemo
  grainSize := 100
  density := 8
  position := 0.5
  pitch := 0
  positionSpray := 0.1
  pitchSpray := 0.1
  stereoSpread := 0.5
  gain := 0.8
  envelope := .hann

/-! ## Resonant filter bank (`resonator.ts`) -/

/-- Band description `ResonatorBand` from `resonator.ts`. -/
structure ResonatorBand where
  freq : ℝ
  q : ℝ
  gain : ℝ

/-- Parameter bag `ResonatorParams` from `resonator.ts`: exactly three bands
plus a dry/wet mix. -/
structure ResonatorParams where
  bands : ResonatorBand × ResonatorBand × ResonatorBand
  mix : ℝ

/-- Semantics of the runtime's `el.bandpass` primitive, abstracted: a
function of center frequency, Q and the input stream.  The repository treats
the filter as an external black box, so every theorem below holds for an
arbitrary such function. -/
def BandpassSem : Type := ℝ → ℝ → (ℕ → ℝ) → ℕ → ℝ

/-- One band of `processChannel`: the band-pass output scaled by the band's
gain (`el.mul(filtered, gain)`). -/
def bandOut (bp : BandpassSem) (band : ResonatorBand) (input : ℕ → ℝ)
    (n : ℕ) : ℝ :=
  bp band.freq band.q input n * band.gain

/-- Wet signal of `processChannel`: the sum of the three gain-scaled band
outputs (`el.add(el.add(b0, b1), b2)`). -/
def wetSum (bp : BandpassSem) (params : ResonatorParams) (input : ℕ → ℝ)
    (n : ℕ) : ℝ :=
  bandOut bp params.bands.1 input n + bandOut bp params.bands.2.1 input n +
    bandOut bp params.bands.2.2 input n

/-- Smoothed mix signal of `processChannel`:
`el.smooth(el.tau2pole(0.02), el.const(mix))`. -/
def mixSignal (params : ResonatorParams) : ℕ → ℝ :=
  smoothStream (tau2pole 0.02) fun _ => params.mix

/-- Per-channel resonator `processChannel` from `resonator.ts`:
`dry = input·(1 - mix)`, `wetMixed = wet·mix`, output their sum.  The key
argument only names runtime state and does not influence the per-sample
values. -/
def processChannel (key : String) (bp : BandpassSem) (params : ResonatorParams)
    (input : ℕ → ℝ) (n : ℕ) : ℝ :=
  input n * (1 - mixSignal params n) + wetSum bp params input n * mixSignal params n

/-- Left-channel key suffix used by `createResonator`. -/
def keySuffixL : String := ":L"

/-- Right-channel key suffix used by `createResonator`. -/
def keySuffixR : String := ":R"

/-- Stereo resonator `createResonator` from `resonator.ts`: each channel is
passed through `processChannel` with its own key suffix. -/
def createResonator (key : String) (bp : BandpassSem) (params : ResonatorParams)
    (input : (ℕ → ℝ) × (ℕ → ℝ)) : (ℕ → ℝ) × (ℕ → ℝ) :=
  (processChannel (key ++ keySuffixL) bp params input.1,
   processChannel (key ++ keySuffixR) bp params input.2)

/-! ## Mixer (`use-audio.tsx`) -/

/-- Mixer source entry `SourceEntry` from `use-audio.tsx`: a stereo signal
plus a gain. -/
structure SourceEntry where
  signal : (ℕ → ℝ) × (ℕ → ℝ)
  gain : ℝ

/-- Mixer state: the id-keyed source map held in `sourcesRef`. -/
def MixerState : Type := List (String × SourceEntry)

/-- Gain-scaled stereo signal of one source inside `renderMix`: the source's
signal multiplied by its smoothed gain. -/
def processedSource (src : SourceEntry) : (ℕ → ℝ) × (ℕ → ℝ) :=
  let g := smoothStream (tau2pole 0.02) fun _ => src.gain
  (fun n => src.signal.1 n * g n, fun n => src.signal.2 n * g n)

/-- Mix recomputation `renderMix` from `use-audio.tsx`: with no sources the
submitted graph is `el.const({value: 0})` on both channels; otherwise each
source is scaled by its smoothed gain and the results are summed per channel
starting from `el.const({value: 0})`. -/
def renderMix (sources : MixerState) : (ℕ → ℝ) × (ℕ → ℝ) :=
  match sources with
  | [] => (fun _ => 0, fun _ => 0)
  | rest =>
      let processed := rest.map fun p => processedSource p.2
      (processed.foldl (fun acc s => fun n => acc n + s.1 n) fun _ => 0,
       processed.foldl (fun acc s => fun n => acc n + s.2 n) fun _ => 0)

/-- State change of `silence` from `use-audio.tsx`: the source map is
cleared (after which `renderMix` runs on the emptied map). -/
def silence (_sources : MixerState) : MixerState := []

/-! ## Ambient texture generator, the Diffuse World (`diffuse-world.ts`) -/

/-- Voice options `DiffuseVoiceOptions` from the diffuse-world module.
Numeric fields are kept rational so that ratio facts about the fixed voice
roster are exact. -/
structure DiffuseVoiceOptions where
  key : String
  triggerRate : ℚ
  probability : ℚ
  minFreq : ℚ
  maxFreq : ℚ
  burstDuration : ℕ
  gain : ℚ

/-- Combined trigger of `createDiffuseVoice`:
`triggerChance = el.latch(clock, el.rand(...))`,
`shouldTrigger = el.le(triggerChance, probability)`,
`trigger = el.and(clock, shouldTrigger)`. -/
def diffuseTrigger (clock rand : ℕ → ℝ) (probability : ℝ) (n : ℕ) : ℝ :=
  elAnd (clock n) (elLe (latchStream clock rand n) probability)

/-- Fixed five-voice roster instantiated by `createDiffuseWorld` when
active, with the literal option records of the source. -/
def diffuseWorldVoices (key : String) : List DiffuseVoiceOptions :=
  [{ key := key ++ ":v1", triggerRate := 0.7, probability := 0.25,
     minFreq := 200, maxFreq := 800, burstDuration := 180, gain := 0.15 },
   { key := key ++ ":v2", triggerRate := 1.3, probability := 0.2,
     minFreq := 600, maxFreq := 2000, burstDuration := 100, gain := 0.12 },
   { key := key ++ ":v3", triggerRate := 2.1, probability := 0.15,
     minFreq := 1500, maxFreq := 4000, burstDuration := 60, gain := 0.08 },
   { key := key ++ ":v4", triggerRate := 0.4, probability := 0.3,
     minFreq := 150, maxFreq := 400, burstDuration := 200, gain := 0.1 },
   { key := key ++ ":v5", triggerRate := 3.7, probability := 0.08,
     minFreq := 2500, maxFreq := 5000, burstDuration := 30, gain := 0.06 }]

/-- Trigger rates of the five diffuse-world voices, in roster order. -/
def diffuseRates (key : String) : List ℚ :=
  (diffuseWorldVoices key).map DiffuseVoiceOptions.triggerRate

/-! ## Envelope generator (`envelope.ts`) -/

/-- Option bag `EnvelopeOptions` of `createEnvelope`, with the source's
default values already resolved by the caller.  `sustainTickTime` counts
ticks of the envelope's fixed 1000 Hz internal clock. -/
structure EnvelopeOptions where
  key : String
  gate : ℝ
  attack : ℝ
  sustain : ℝ
  release : ℝ
  sustainTickTime : ℕ

/-- Value semantics of `el.sparseq`: at tick count `tick` since the last
reset, the value of the last entry whose tick time is ≤ `tick` (0 before any
entry applies).  Entries are `(value, tickTime)` pairs in source order. -/
def sparseqValue (entries : List (ℝ × ℕ)) (tick : ℕ) : ℝ :=
  entries.foldl (fun acc e => if e.2 ≤ tick then e.1 else acc) 0

/-- Envelope shape sequence of `createEnvelope`: value 1 at tick 0, the
sustain level at `sustainTickTime` ticks. -/
def envSeqEntries (o : EnvelopeOptions) : List (ℝ × ℕ) :=
  [(1, 0), (o.sustain, o.sustainTickTime)]

/-- Smoothing constant selection of `createEnvelope`, performed
synchronously at graph-construction time:
`gate === 1 ? attack : release`. -/
def smoothTimeOf (o : EnvelopeOptions) : ℝ :=
  if o.gate = 1 then o.attack else o.release

/-- Output of `createEnvelope`:
`el.smooth(el.tau2pole(smoothTime), el.mul(gateSignal, seq))`, with the
sequence driven by the internal tick clock (one step per tick here). -/
def createEnvelope (o : EnvelopeOptions) : ℕ → ℝ :=
  smoothStream (tau2pole (smoothTimeOf o))
    fun tick => o.gate * sparseqValue (envSeqEntries o) tick

/-! ## Melodic sequencer (`melody-synth.ts`) -/

/-- Note record `MidiNote` from `melody-synth.ts`. -/
structure MidiNote where
  note : ℕ
  vel : ℕ
  startTick : ℕ
  endTick : ℕ
  deriving DecidableEq, Repr

/-- Total tick count `TOTAL_TICKS` from `melody-synth.ts`. -/
def TOTAL_TICKS : ℕ := 15360

/-- Literal note timeline `MELODY_NOTES` from `melody-synth.ts`. -/
def MELODY_NOTES : List MidiNote :=
  [⟨68, 80, 0, 599⟩, ⟨66, 80, 600, 719⟩, ⟨68, 80, 720, 839⟩,
   ⟨69, 80, 840, 959⟩, ⟨68, 80, 960, 1079⟩, ⟨66, 80, 1080, 1199⟩,
   ⟨64, 80, 1200, 1919⟩, ⟨64, 80, 1920, 2519⟩, ⟨63, 80, 2520, 2639⟩,
   ⟨64, 80, 2640, 2759⟩, ⟨66, 80, 2760, 2879⟩, ⟨64, 80, 2880, 2999⟩,
   ⟨63, 80, 3000, 3119⟩, ⟨61, 80, 3120, 3839⟩,
   ⟨68, 80, 5760, 6359⟩, ⟨66, 80, 6360, 6479⟩, ⟨68, 80, 6480, 6599⟩,
   ⟨71, 80, 6600, 6719⟩, ⟨68, 80, 6720, 6839⟩, ⟨66, 80, 6840, 6959⟩,
   ⟨64, 80, 6960, 7679⟩, ⟨64, 80, 7680, 8279⟩, ⟨63, 80, 8280, 8399⟩,
   ⟨64, 80, 8400, 8519⟩, ⟨68, 80, 8520, 8639⟩, ⟨64, 80, 8640, 8759⟩,
   ⟨63, 80, 8760, 8879⟩, ⟨61, 80, 8880, 9599⟩,
   ⟨68, 80, 11520, 12119⟩, ⟨66, 80, 12120, 12239⟩, ⟨68, 80, 12240, 12359⟩,
   ⟨73, 80, 12360, 12479⟩, ⟨68, 80, 12480, 12599⟩, ⟨66, 80, 12600, 12719⟩,
   ⟨64, 80, 12720, 13439⟩, ⟨64, 80, 13440, 14039⟩, ⟨63, 80, 14040, 14159⟩,
   ⟨64, 80, 14160, 14279⟩, ⟨71, 80, 14280, 14399⟩, ⟨64, 80, 14400, 14519⟩,
   ⟨63, 80, 14520, 14639⟩, ⟨61, 80, 14640, 15359⟩]

/-- Entry of the gate event sequence built by `buildGateSeq`: a gate value
(0 or 1) and a tick time. -/
structure GateEvent where
  value : ℕ
  tickTime : ℕ
  deriving DecidableEq, Repr

/-- Gate sequence builder `buildGateSeq` from `melody-synth.ts`: one leading
`{value: 0, tickTime: 0}` entry, then for each note a `1` at its start tick
and a `0` at its end tick. -/
def buildGateSeq : List GateEvent :=
  ⟨0, 0⟩ :: (MELODY_NOTES.map fun n => [GateEvent.mk 1 n.startTick,
    GateEvent.mk 0 n.endTick]).flatten

/-! ## Resonator melody driver (`resonator-melody.ts`) -/

/-- Pitch pool `MELODY_MIDI` from `resonator-melody.ts`. -/
def MELODY_MIDI : List ℕ := [68, 66, 69, 64, 63, 61, 71, 73]

/-- Conversion `midiToFreq` from `resonator-melody.ts`:
`440 * 2^((note - 69)/12)`. -/
def midiToFreq (note : ℕ) : ℝ :=
  440 * (2 : ℝ) ^ (((note : ℝ) - 69) / 12)

/-- Detune helper `detuneCents` from `resonator-melody.ts`:
`freq * 2^(cents/1200)`. -/
def detuneCents (freq cents : ℝ) : ℝ :=
  freq * (2 : ℝ) ^ (cents / 1200)

/-- Deterministic pitch picker `pick` from `resonator-melody.ts`:
`hash = ((band * 7919 + period * 104729) ^ 0x5bd1e995) >>> 0`, then index
`MELODY_MIDI` by `hash % length`.  The 32-bit xor-and-truncate of the
JavaScript source becomes `Nat.xor` followed by reduction mod `2^32`. -/
def pick (band period : ℕ) : ℕ :=
  let hash := Nat.xor (band * 7919 + period * 104729) 0x5bd1e995 % 2 ^ 32
  MELODY_MIDI.getD (hash % MELODY_MIDI.length) 0

/-- Hold durations `HOLD_DURATIONS` from `resonator-melody.ts`, seconds per
band. -/
def HOLD_DURATIONS : List ℚ := [45, 61, 53]

/-- Hold period index of a band at clamped time `t`:
`Math.floor(t / dur)`. -/
def bandPeriod (t dur : ℚ) : ℕ := (Int.floor (t / dur)).toNat

/-- Held frequency of band `i` with hold duration `dur` at clamped time
`t`: `midiToFreq(pick(i, period))`. -/
def bandFreqAt (t : ℚ) (i : ℕ) (dur : ℚ) : ℝ :=
  midiToFreq (pick i (bandPeriod t dur))

/-- Parameter snapshot `getResonatorParamsAtTime` from
`resonator-melody.ts`, with the map over `HOLD_DURATIONS` unrolled to the
three literal bands of the source. -/
def getResonatorParamsAtTime (time : ℚ) : ResonatorParams :=
  { bands :=
      (⟨bandFreqAt (max 0 time) 0 45, 80, 0.8⟩,
       ⟨detuneCents (bandFreqAt (max 0 time) 1 61 * 2) 7, 80, 0.6⟩,
       ⟨detuneCents (bandFreqAt (max 0 time) 2 53 * 3) (-5), 80, 0.4⟩),
    mix := 0.7 }

/-- Next boundary of one band inside `getNextChangeTime`:
`(Math.floor(t / dur) + 1) * dur`. -/
def nextBoundary (t dur : ℚ) : ℚ := ((Int.floor (t / dur) : ℚ) + 1) * dur

/-- Boundary query `getNextChangeTime` from `resonator-melody.ts`:
`Math.min` of the per-band next boundaries at the clamped time. -/
def getNextChangeTime (time : ℚ) : ℚ :=
  min (nextBoundary (max 0 time) 45)
    (min (nextBoundary (max 0 time) 61) (nextBoundary (max 0 time) 53))

/-! ## Shared helper lemmas -/

/-- Demo key used by concrete instantiations in this file. -/
def keyDemo : String := "demo"

/-- Accumulating nonnegative increments never produces a negative value,
whatever the reset signal does. -/
lemma accumStream_nonneg (x reset : ℕ → ℝ) (hx : ∀ k, 0 ≤ x k) (n : ℕ) :
    0 ≤ accumStream x reset n := by
  induction n with
  | zero =>
      simp only [accumStream]
      split_ifs
      · exact le_refl 0
      · exact hx 0
  | succ n ih =>
      simp only [accumStream]
      split_ifs
      · exact le_refl 0
      · exact add_nonneg ih (hx (n + 1))

/-- A latch fed by a nonnegative stream outputs nonnegative values. -/
lemma latchStream_nonneg (t x : ℕ → ℝ) (hx : ∀ k, 0 ≤ x k) (n : ℕ) :
    0 ≤ latchStream t x n := by
  induction n with
  | zero =>
      simp only [latchStream]
      split_ifs
      · exact hx 0
      · exact le_refl 0
  | succ n ih =>
      simp only [latchStream]
      split_ifs
      · exact hx (n + 1)
      · exact ih

/-- Smoothing the constant-zero stream yields the constant-zero stream. -/
lemma smoothStream_const_zero (p : ℝ) (n : ℕ) :
    smoothStream p (fun _ => 0) n = 0 := by
  induction n with
  | zero => simp [smoothStream]
  | succ n ih => simp [smoothStream, ih]

/-- Smoothing the constant-one stream from the zero initial state gives the
exponential approach `1 - p^(n+1)`. -/
lemma smoothStream_const_one (p : ℝ) (n : ℕ) :
    smoothStream p (fun _ => 1) n = 1 - p ^ (n + 1) := by
  induction n with
  | zero => simp [smoothStream]
  | succ n ih =>
      simp only [smoothStream, ih]
      ring

/-! ## Claim theorems -/

/-- Claim C1, counterexample.  The claim demands that the enveloped grain
output be exactly 0 for every phase value outside `[0,1)`, for every
parameter set.  Negative phases are reachable (nothing clamps `pitch`, and a
negative pitch makes the phase increment negative, so the accumulator ramps
below 0 — shown here for an increment of `-1/4`), and at phase `-1/4` the
Hann-enveloped gated output is `1/2`, not 0. -/
theorem negative_phase_grain_output_nonzero :
    accumStream (fun _ => -(1 / 4)) (fun _ => 0) 0 = -(1 / 4) ∧
      gatedEnv (-(1 / 4)) GrainEnvelope.hann = 1 / 2 := by
  constructor
  · simp [accumStream]
  · have hcos : Real.cos (2 * Real.pi * -(1 / 4)) = 0 := by
      rw [show 2 * Real.pi * -(1 / 4) = -(Real.pi / 2) by ring, Real.cos_neg,
        Real.cos_pi_div_two]
    have hgate : grainActive (-(1 / 4)) = 1 := by
      rw [grainActive, elLe, if_pos (by norm_num)]
    rw [gatedEnv, grainEnvelope, hannEnvelope, hcos, hgate]
    norm_num

/-- Claim C1, amended.  The grain gate `el.le(phase, 1)` is the strict
comparison, so the gate is 0 for every phase ≥ 1 and the enveloped grain
output is exactly 0 there, for both envelope shapes; and whenever the phase
increment is nonnegative (every parameter set with `pitch ≥ 0`) the phase
accumulator never goes below 0, so all phase values outside the active
window `[0,1)` satisfy `phase ≥ 1` and produce output exactly 0.  Negative
pitch values break the original unrestricted statement (see the
counterexample). -/
theorem grain_output_zero_beyond_window (φ : ℝ) (sh : GrainEnvelope)
    (inc reset : ℕ → ℝ) (n : ℕ) (hφ : 1 ≤ φ) (hinc : ∀ k, 0 ≤ inc k) :
    grainActive φ = 0 ∧ gatedEnv φ sh = 0 ∧ 0 ≤ accumStream inc reset n := by
  have hgate : grainActive φ = 0 := by
    rw [grainActive, elLe, if_neg (not_lt.mpr hφ)]
  exact ⟨hgate, by rw [gatedEnv, hgate, mul_zero],
    accumStream_nonneg inc reset hinc n⟩

/-- Claim C1, witness: the amended theorem applied at phase 2 with the Hann
shape and a constant increment of 2. -/
theorem grain_output_zero_beyond_window_witness :
    grainActive 2 = 0 ∧ gatedEnv 2 GrainEnvelope.hann = 0 ∧
      0 ≤ accumStream (fun _ => 2) (fun _ => 0) 0 :=
  grain_output_zero_beyond_window 2 GrainEnvelope.hann (fun _ => 2)
    (fun _ => 0) 0 (by norm_num) (fun _ => by norm_num)

/-- Claim C2 (code bug).  `createGrainVoice` divides `grainSizeSamples` by
the raw `pitch` parameter with no clamp or guard anywhere on the path from
`createGranular`: at `pitch = 0` the effective grain length collapses to 0
(in JavaScript the division produces Infinity and the subsequent multiply
NaN), violating the documented invariant that the grain length in samples is
never ≤ 0.  The theorem evaluates the embedded code at the failing input for
every latched random value. -/
theorem grain_length_collapses_at_pitch_zero (pitchRand : ℝ) :
    paramsPitchZero.pitch = 0 ∧
      grainLengthInSamples paramsPitchZero pitchRand = 0 ∧
      ¬ 0 < grainLengthInSamples paramsPitchZero pitchRand := by
  refine ⟨rfl, ?_, ?_⟩
  · simp [grainLengthInSamples, grainSizeSamples, pitchScale, paramsPitchZero]
  · simp [grainLengthInSamples, grainSizeSamples, pitchScale, paramsPitchZero]

/-- Claim C3 (confirmed).  After `silence()` clears the source map — and in
general whenever the source map is empty — `renderMix` submits
`el.const({value: 0})` on both channels, so every rendered sample of the
submitted stereo graph is exactly 0. -/
theorem mixer_silence_renders_exact_zero (s : MixerState) (n : ℕ) :
    (renderMix (silence s)).1 n = 0 ∧ (renderMix (silence s)).2 n = 0 ∧
      (renderMix []).1 n = 0 ∧ (renderMix []).2 n = 0 :=
  ⟨rfl, rfl, rfl, rfl⟩

/-- Identity bandpass semantics used by concrete instantiations: a valid
black-box filter choice, since the resonator claims hold for every filter
semantics. -/
def bpId : BandpassSem := fun _ _ x => x

/-- Three bands with gain 0 each and full wet mix: a legal band
configuration for `createResonator`. -/
def silentBandsFullWet : ResonatorParams where
  bands := (⟨1000, 80, 0⟩, ⟨2000, 80, 0⟩, ⟨3000, 80, 0⟩)
  mix := 1

/-- The same silent band configuration with mix 0. -/
def silentBandsFullDry : ResonatorParams where
  bands := (⟨1000, 80, 0⟩, ⟨2000, 80, 0⟩, ⟨3000, 80, 0⟩)
  mix := 0

/-- Constant-one test input stream. -/
def oneSig : ℕ → ℝ := fun _ => 1

/-- Claim C4, counterexample.  The `mix` control is smoothed from the
one-pole's zero initial state, so with `mix = 1` the wet weight at sample 0
is only `1 - p` (`p = tau2pole(0.02) > 0`) and the output keeps a dry
contribution: with all band gains 0 (wet sum identically 0) and constant
input 1, the first output sample is `p ≠ 0` instead of the claimed band
sum 0. -/
theorem resonator_full_wet_retains_dry_at_start :
    processChannel keyDemo bpId silentBandsFullWet oneSig 0 ≠
      wetSum bpId silentBandsFullWet oneSig 0 := by
  have hp : tau2pole 0.02 ≠ 0 := (Real.exp_pos _).ne.symm
  simp only [processChannel, wetSum, bandOut, mixSignal, smoothStream,
    silentBandsFullWet, bpId, oneSig]
  intro h
  apply hp
  nlinarith [h]

/-- Claim C4, amended.  Per sample, each resonator channel output equals
`dry·(1 − m) + wet·m` where `m` is the smoothed mix signal (not the raw
`mix` parameter) and `wet` is the gain-weighted sum of the three band-pass
outputs.  For `mix = 0` the smoothed signal stays at 0, so the output is
identically the input, for every band configuration and filter semantics.
For `mix = 1` the output equals the wet sum only up to a dry remainder that
decays geometrically: at sample `n` the output is
`wet + (input − wet)·p^(n+1)`, so the claimed identity with the band sum
holds only in the limit. -/
theorem resonator_mix_crossfade (key : String) (bp : BandpassSem)
    (params : ResonatorParams) (input : ℕ → ℝ) (n : ℕ) :
    processChannel key bp params input n =
        input n * (1 - mixSignal params n) +
          wetSum bp params input n * mixSignal params n ∧
      (params.mix = 0 → processChannel key bp params input n = input n) ∧
      (params.mix = 1 → processChannel key bp params input n =
        wetSum bp params input n +
          (input n - wetSum bp params input n) * tau2pole 0.02 ^ (n + 1)) := by
  refine ⟨rfl, ?_, ?_⟩
  · intro h0
    have hm : mixSignal params n = 0 := by
      rw [mixSignal, h0]
      exact smoothStream_const_zero _ n
    rw [processChannel, hm]
    ring
  · intro h1
    have hm : mixSignal params n = 1 - tau2pole 0.02 ^ (n + 1) := by
      rw [mixSignal, h1]
      exact smoothStream_const_one _ n
    rw [processChannel, hm]
    ring

/-- Claim C4, witness: the amended theorem at sample 0 on the concrete
silent-band configurations, with the dry passthrough and the geometric
remainder both instantiated. -/
theorem resonator_mix_crossfade_witness :
    processChannel keyDemo bpId silentBandsFullDry oneSig 0 = oneSig 0 ∧
      processChannel keyDemo bpId silentBandsFullWet oneSig 0 =
        wetSum bpId silentBandsFullWet oneSig 0 +
          (oneSig 0 - wetSum bpId silentBandsFullWet oneSig 0) *
            tau2pole 0.02 ^ (0 + 1) :=
  ⟨(resonator_mix_crossfade keyDemo bpId silentBandsFullDry oneSig 0).2.1 rfl,
   (resonator_mix_crossfade keyDemo bpId silentBandsFullWet oneSig 0).2.2 rfl⟩

/-- Claim C5 (confirmed).  `el.le` is the strict comparison, so with
`probability = 0` the latched chance value — initially 0 and afterwards a
latched uniform random sample, hence always ≥ 0 — is never strictly below
the threshold, and the combined trigger `el.and(clock, shouldTrigger)` is 0
at every sample of every run, for every clock signal and every nonnegative
random stream. -/
theorem diffuse_probability_zero_never_triggers (clock rand : ℕ → ℝ)
    (n : ℕ) (hrand : ∀ k, 0 ≤ rand k) :
    diffuseTrigger clock rand 0 n = 0 := by
  have hlatch : ¬ latchStream clock rand n < 0 :=
    not_lt.mpr (latchStream_nonneg clock rand hrand n)
  rw [diffuseTrigger, elLe, if_neg hlatch, elAnd]
  simp

/-- Claim C5, witness: a constantly pulsing clock against the constant
random stream 1/2 never triggers at probability 0 (sample 3 shown). -/
theorem diffuse_probability_zero_never_triggers_witness :
    diffuseTrigger (fun _ => 1) (fun _ => 1 / 2) 0 3 = 0 :=
  diffuse_probability_zero_never_triggers (fun _ => 1) (fun _ => 1 / 2) 3
    (fun _ => by norm_num)

/-- Rational numbers that are an integer multiple of a nonzero rational
have an integer quotient; contrapositive used to read off non-integer
ratios from the denominator of the quotient. -/
lemma not_int_multiple_of_den_ne_one (a b : ℚ) (hb : b ≠ 0)
    (h : (a / b).den ≠ 1) (k : ℤ) : a ≠ k * b := by
  intro hk
  apply h
  rw [hk, mul_div_assoc, div_self hb, mul_one, Rat.den_intCast]

/-- Claim C6, counterexample.  The five trigger rates are 0.7, 1.3, 2.1,
0.4 and 3.7 Hz; voice 3's rate is exactly 3 × voice 1's rate, so the rates
are not pairwise in non-integer ratio. -/
theorem diffuse_rate_integer_multiple :
    (diffuseRates keyDemo).getD 2 0 = 3 * (diffuseRates keyDemo).getD 0 0 := by
  norm_num [diffuseRates, diffuseWorldVoices]

/-- Claim C6, amended.  `createDiffuseWorld`, when active, instantiates
exactly 5 voices whose trigger rates are pairwise distinct, and every
ordered pair of distinct voices except (voice 3, voice 1) is in non-integer
ratio; the excluded pair fails because 2.1 Hz is exactly 3 × 0.7 Hz. -/
theorem diffuse_world_voice_roster (key : String) :
    (diffuseWorldVoices key).length = 5 ∧
      (diffuseRates key).Pairwise (· ≠ ·) ∧
      (∀ i j : Fin 5, i ≠ j → ¬(i.val = 2 ∧ j.val = 0) →
        ∀ k : ℤ, (diffuseRates key).getD i 0 ≠
          (k : ℚ) * (diffuseRates key).getD j 0) ∧
      (diffuseRates key).getD 2 0 = 3 * (diffuseRates key).getD 0 0 := by
  refine ⟨rfl, ?_, ?_, by norm_num [diffuseRates, diffuseWorldVoices]⟩
  · simp only [diffuseRates, diffuseWorldVoices, List.map_cons, List.map_nil,
      List.pairwise_cons, List.mem_cons, List.not_mem_nil]
    norm_num
  · intro i j hij hex
    fin_cases i <;> fin_cases j <;>
      simp_all only [Fin.mk.injEq, ne_eq, not_true_eq_false, not_false_eq_true,
        and_true, and_false, not_and] <;>
      · apply not_int_multiple_of_den_ne_one <;>
          norm_num [diffuseRates, diffuseWorldVoices]

/-- Claim C6, witness: the amended theorem instantiated at the demo key,
with the non-integer-ratio fact applied to voices 4 and 5 at the integer 9. -/
theorem diffuse_world_voice_roster_witness :
    (diffuseWorldVoices keyDemo).length = 5 ∧
      (diffuseRates keyDemo).getD 3 0 ≠
        ((9 : ℤ) : ℚ) * (diffuseRates keyDemo).getD 4 0 :=
  ⟨(diffuse_world_voice_roster keyDemo).1,
   (diffuse_world_voice_roster keyDemo).2.2.1 3 4 (by decide) (by decide) 9⟩

/-- Claim C7 (confirmed).  `createResonator` feeds the left input through
`processChannel` with the `:L` key and the right input through the same
function with the `:R` key; the key does not influence the per-sample
semantics, so the left output depends only on the left input, the right
output only on the right input, and both channels are processed by the same
per-channel function. -/
theorem resonator_channel_independence (key : String) (bp : BandpassSem)
    (params : ResonatorParams) (i1 i2 : (ℕ → ℝ) × (ℕ → ℝ)) :
    createResonator key bp params i1 =
        (processChannel (key ++ keySuffixL) bp params i1.1,
         processChannel (key ++ keySuffixR) bp params i1.2) ∧
      (i1.1 = i2.1 →
        (createResonator key bp params i1).1 =
          (createResonator key bp params i2).1) ∧
      (i1.2 = i2.2 →
        (createResonator key bp params i1).2 =
          (createResonator key bp params i2).2) ∧
      (∀ k1 k2 : String, ∀ inp : ℕ → ℝ,
        processChannel k1 bp params inp = processChannel k2 bp params inp) := by
  refine ⟨rfl, ?_, ?_, fun k1 k2 inp => rfl⟩
  · intro h
    simp only [createResonator, h]
  · intro h
    simp only [createResonator, h]

/-- Claim C7, witness: two stereo inputs sharing the left channel but
differing on the right produce equal left outputs. -/
theorem resonator_channel_independence_witness :
    (createResonator keyDemo bpId silentBandsFullDry
        (oneSig, fun _ => 2)).1 =
      (createResonator keyDemo bpId silentBandsFullDry
        (oneSig, fun _ => 3)).1 :=
  (resonator_channel_independence keyDemo bpId silentBandsFullDry
    (oneSig, fun _ => 2) (oneSig, fun _ => 3)).2.1 rfl

/-- Envelope options with the gate held high and the source's default
numeric values. -/
def envOptsHigh : EnvelopeOptions where
  key := keyDemo
  gate := 1
  attack := 0.01
  sustain := 0.4
  release := 0.1
  sustainTickTime := 100

/-- Envelope options with the gate held low. -/
def envOptsLow : EnvelopeOptions where
  key := keyDemo
  gate := 0
  attack := 0.01
  sustain := 0.4
  release := 0.1
  sustainTickTime := 100

/-- Claim C8 (confirmed).  `createEnvelope` is exactly the one-pole
smoothing of `gate × sequence`; the sequence value is 1 at tick 0 (when
`sustainTickTime > 0`) and the sustain level from `sustainTickTime` ticks
on, with tick counting reset on each rising gate edge by the sparseq reset
input; and the smoothing constant is chosen synchronously at construction
from the caller-supplied gate: the attack time when `gate = 1`, the release
time when `gate = 0`. -/
theorem envelope_smoothing_and_sequence (o : EnvelopeOptions) (n : ℕ) :
    createEnvelope o =
        smoothStream (tau2pole (smoothTimeOf o))
          (fun tick => o.gate * sparseqValue (envSeqEntries o) tick) ∧
      (o.gate = 1 → smoothTimeOf o = o.attack) ∧
      (o.gate = 0 → smoothTimeOf o = o.release) ∧
      (0 < o.sustainTickTime → sparseqValue (envSeqEntries o) 0 = 1) ∧
      (o.sustainTickTime ≤ n → sparseqValue (envSeqEntries o) n = o.sustain) := by
  refine ⟨rfl, ?_, ?_, ?_, ?_⟩
  · intro h
    rw [smoothTimeOf, if_pos h]
  · intro h
    rw [smoothTimeOf, if_neg (by rw [h]; norm_num)]
  · intro h
    simp only [sparseqValue, envSeqEntries, List.foldl_cons, List.foldl_nil,
      le_refl, if_true]
    rw [if_neg (by omega)]
  · intro h
    simp [sparseqValue, envSeqEntries, h]

/-- Claim C8, witness: the construction-time selection and the sequence
shape evaluated on the concrete high- and low-gate option records. -/
theorem envelope_smoothing_and_sequence_witness :
    smoothTimeOf envOptsHigh = envOptsHigh.attack ∧
      smoothTimeOf envOptsLow = envOptsLow.release ∧
      sparseqValue (envSeqEntries envOptsHigh) 0 = 1 ∧
      sparseqValue (envSeqEntries envOptsHigh) 100 = envOptsHigh.sustain :=
  ⟨(envelope_smoothing_and_sequence envOptsHigh 100).2.1 rfl,
   (envelope_smoothing_and_sequence envOptsLow 0).2.2.1 rfl,
   (envelope_smoothing_and_sequence envOptsHigh 100).2.2.2.1 (by decide),
   (envelope_smoothing_and_sequence envOptsHigh 100).2.2.2.2 (by decide)⟩

/-- Claim C9, counterexample.  The first melody note starts at tick 0, so
`buildGateSeq` begins with the primed entry `{value 0, tick 0}` immediately
followed by `{value 1, tick 0}`: two events at the same tick, so the gate
sequence does not alternate at strictly increasing tick times. -/
theorem gate_seq_initial_ticks_coincide :
    (buildGateSeq.get ⟨0, by decide⟩).tickTime = 0 ∧
      (buildGateSeq.get ⟨1, by decide⟩).tickTime = 0 ∧
      ¬ List.Chain' (fun a b => a.tickTime < b.tickTime) buildGateSeq := by
  refine ⟨by decide, by decide, ?_⟩
  rw [List.chain'_iff_get]
  decide

/-- Claim C9, amended.  The note timeline is strictly non-overlapping and
ordered: consecutive entries of `MELODY_NOTES` satisfy
`endTick < next startTick`, every onset and offset tick lies in
`[0, TOTAL_TICKS)`, and the derived gate sequence alternates 0/1 values at
non-decreasing tick times that are strictly increasing from the second
entry on; only the initial primed entry shares tick 0 with the first note's
onset, because that note starts at tick 0. -/
theorem melody_timeline_monotone :
    List.Chain' (fun a b => a.endTick < b.startTick) MELODY_NOTES ∧
      List.Chain' (fun a b => a.startTick < b.startTick) MELODY_NOTES ∧
      (∀ m ∈ MELODY_NOTES, m.startTick < m.endTick ∧
        m.startTick < TOTAL_TICKS ∧ m.endTick < TOTAL_TICKS) ∧
      (∀ e ∈ buildGateSeq, e.value = 0 ∨ e.value = 1) ∧
      List.Chain' (fun a b => a.value ≠ b.value) buildGateSeq ∧
      List.Chain' (fun a b => a.tickTime ≤ b.tickTime) buildGateSeq ∧
      List.Chain' (fun a b => a.tickTime < b.tickTime) (buildGateSeq.drop 1) := by
  refine ⟨?_, ?_, by decide, by decide, ?_, ?_, ?_⟩ <;>
    · rw [List.chain'_iff_get]
      decide

/-- Claim C9, witness: the membership-guarded bounds applied to the first
note of the timeline. -/
theorem melody_timeline_monotone_witness :
    (MidiNote.mk 68 80 0 599).startTick < (MidiNote.mk 68 80 0 599).endTick ∧
      (MidiNote.mk 68 80 0 599).startTick < TOTAL_TICKS ∧
      (MidiNote.mk 68 80 0 599).endTick < TOTAL_TICKS :=
  melody_timeline_monotone.2.2.1 (MidiNote.mk 68 80 0 599) (by decide)

/-- A time is strictly below the next hold boundary of any band with a
positive hold duration. -/
lemma lt_nextBoundary (t dur : ℚ) (hd : 0 < dur) : t < nextBoundary t dur := by
  have h := Int.lt_floor_add_one (t / dur)
  calc t = t / dur * dur := (div_mul_cancel₀ t hd.ne.symm).symm
    _ < ((Int.floor (t / dur) : ℚ) + 1) * dur := by
        exact mul_lt_mul_of_pos_right (by exact_mod_cast h) hd
    _ = nextBoundary t dur := rfl

/-- The hold period index is stable on `[t, nextBoundary t dur)`. -/
lemma floor_stable (t s dur : ℚ) (hd : 0 < dur) (hts : t ≤ s)
    (hs : s < nextBoundary t dur) : Int.floor (s / dur) = Int.floor (t / dur) := by
  refine Int.floor_eq_iff.mpr ⟨?_, ?_⟩
  · calc ((Int.floor (t / dur) : ℚ)) ≤ t / dur := Int.floor_le _
      _ ≤ s / dur := (div_le_div_iff_of_pos_right hd).mpr hts
  · rw [div_lt_iff₀ hd]
    calc s < nextBoundary t dur := hs
      _ = ((Int.floor (t / dur) : ℚ) + 1) * dur := rfl

/-- Claim C10 (confirmed).  For every time `t ≥ 0`, `getNextChangeTime t`
is strictly greater than `t`, and `getResonatorParamsAtTime` returns equal
resonator parameters at any two times in `[t, getNextChangeTime t)`: the
per-band held pitches are piecewise constant between the boundaries
reported by `getNextChangeTime`. -/
theorem resonator_params_piecewise_constant (t s s2 : ℚ) (ht : 0 ≤ t)
    (hts : t ≤ s) (hts2 : t ≤ s2) (hs : s < getNextChangeTime t)
    (hs2 : s2 < getNextChangeTime t) :
    t < getNextChangeTime t ∧
      getResonatorParamsAtTime s = getResonatorParamsAtTime s2 := by
  have hmt : max 0 t = t := max_eq_right ht
  have hms : max 0 s = s := max_eq_right (ht.trans hts)
  have hms2 : max 0 s2 = s2 := max_eq_right (ht.trans hts2)
  have hle45 : getNextChangeTime t ≤ nextBoundary t 45 := by
    rw [getNextChangeTime, hmt]
    exact min_le_left _ _
  have hle61 : getNextChangeTime t ≤ nextBoundary t 61 := by
    rw [getNextChangeTime, hmt]
    exact le_trans (min_le_right _ _) (min_le_left _ _)
  have hle53 : getNextChangeTime t ≤ nextBoundary t 53 := by
    rw [getNextChangeTime, hmt]
    exact le_trans (min_le_right _ _) (min_le_right _ _)
  constructor
  · rw [getNextChangeTime, hmt]
    exact lt_min (lt_nextBoundary t 45 (by norm_num))
      (lt_min (lt_nextBoundary t 61 (by norm_num))
        (lt_nextBoundary t 53 (by norm_num)))
  · have h45 := floor_stable t s 45 (by norm_num) hts (hs.trans_le hle45)
    have h61 := floor_stable t s 61 (by norm_num) hts (hs.trans_le hle61)
    have h53 := floor_stable t s 53 (by norm_num) hts (hs.trans_le hle53)
    have h45b := floor_stable t s2 45 (by norm_num) hts2 (hs2.trans_le hle45)
    have h61b := floor_stable t s2 61 (by norm_num) hts2 (hs2.trans_le hle61)
    have h53b := floor_stable t s2 53 (by norm_num) hts2 (hs2.trans_le hle53)
    simp only [getResonatorParamsAtTime, bandFreqAt, bandPeriod, hms, hms2,
      h45, h61, h53, h45b, h61b, h53b]

/-- Claim C10, witness: the piecewise-constancy theorem applied at
`t = 0` with sample times 1 and 2, both below the first boundary at 45 s. -/
theorem resonator_params_piecewise_constant_witness :
    (0 : ℚ) < getNextChangeTime 0 ∧
      getResonatorParamsAtTime 1 = getResonatorParamsAtTime 2 :=
  resonator_params_piecewise_constant 0 1 2 (by norm_num) (by norm_num)
    (by norm_num) (by norm_num [getNextChangeTime, nextBoundary])
    (by norm_num [getNextChangeTime, nextBoundary])

end

end CircularMusic
